import Mathlib

/-!
Verification of the activation decision engine of the stream-recorder
license server (`src/server.py`).

The embedding models the SQLite-backed state as three lists mirroring the
`licenses`, `activations` and `valid_keys` tables, and the function
`verify_activation_key` as a computation that can raise database errors
(`sqlite3.Error` subclasses) at each storage call, caught at the function
boundary exactly as the Python `try`/`except sqlite3.Error` does.
-/

namespace LicenseServer

/-- A row of the `licenses` table: `id` (primary key), `license_key`
(unique), `max_activations`, `is_revoked`. `created_at` carries no
decision-relevant information and is omitted. -/
structure License where
  id : Nat
  license_key : String
  max_activations : Int
  is_revoked : Bool
  deriving DecidableEq, Repr

/-- The database state: the `licenses` table, the `activations` table
(each row a `(license_id, machine_id)` pair; `id` and `activation_date`
carry no decision-relevant information), and the `valid_keys` table. -/
structure Store where
  licenses : List License
  activations : List (Nat × String)
  valid_keys : List String
  deriving DecidableEq, Repr

/-- The query `SELECT id, max_activations, is_revoked FROM licenses WHERE
license_key = ?` followed by `fetchone()`: the first matching row. -/
def findLicenseByKey (ls : List License) (key : String) : Option License :=
  ls.find? (fun l => l.license_key == key)

/-- The query `SELECT 1 FROM activations WHERE license_id = ? AND
machine_id = ?` followed by `fetchone()` truthiness. -/
def hasActivation (acts : List (Nat × String)) (lid : Nat) (mid : String) : Bool :=
  decide ((lid, mid) ∈ acts)

/-- The query `SELECT COUNT(*) FROM activations WHERE license_id = ?`. -/
def countActivations (acts : List (Nat × String)) (lid : Nat) : Nat :=
  acts.countP (fun a => a.1 == lid)

/-- The statement `INSERT INTO activations (license_id, machine_id)
VALUES (?, ?)` followed by `conn.commit()`. -/
def insertActivation (s : Store) (lid : Nat) (mid : String) : Store :=
  { s with activations := s.activations ++ [(lid, mid)] }

/-- The decision outcome as returned by `verify_activation_key`: a dict
with a `status` key (`"success"` or `"error"`) and a `message` key. -/
structure ApiResult where
  status : String
  message : String
  deriving DecidableEq, Repr

def revokedResult : ApiResult :=
  ⟨"error", "Kod aktywacyjny został unieważniony."⟩

def confirmedResult : ApiResult :=
  ⟨"success", "Aktywacja potwierdzona dla tego komputera."⟩

def quotaResult (m : Int) : ApiResult :=
  ⟨"error", s!"Limit aktywacji ({m}) dla tego kodu został przekroczony."⟩

def grantedResult : ApiResult :=
  ⟨"success", "Aktywacja udana."⟩

def testKeyResult : ApiResult :=
  ⟨"success", "Aktywacja testowa udana (symulacja)."⟩

def unknownKeyResult : ApiResult :=
  ⟨"error", "Nieprawidłowy kod aktywacyjny."⟩

/-- The result built by the `except sqlite3.Error` handler. -/
def dbErrorResult : ApiResult :=
  ⟨"error", "Błąd serwera podczas weryfikacji klucza."⟩

/-- The result built by the `except Exception` handler. -/
def unexpectedErrorResult : ApiResult :=
  ⟨"error", "Wystąpił nieoczekiwany błąd serwera."⟩

/-- A `sqlite3.Error`: `IntegrityError` is the duplicate-key constraint
violation raised by the UNIQUE(license_id, machine_id) index; any other
storage failure (connection/disk) is `operationalError`. Both are
subclasses of `sqlite3.Error` in Python. -/
inductive DbError where
  | integrityError
  | operationalError
  deriving DecidableEq, Repr

/-- Fault injection: which storage call of `verify_activation_key`, if
any, raises which `sqlite3.Error`. `none` everywhere is the fault-free
sequential execution. -/
structure FaultSpec where
  licenseQuery : Option DbError
  activationQuery : Option DbError
  countQuery : Option DbError
  insertStep : Option DbError
  validKeysQuery : Option DbError
  deriving DecidableEq, Repr

def noFault : FaultSpec := ⟨none, none, none, none, none⟩

/-- The body of the `try` block of `verify_activation_key`
(`src/server.py` lines 104-149), with each storage call able to raise.
An uncommitted insert whose commit fails is rolled back when the
connection closes, so every error leaves the store unchanged. -/
def verifyBody (s : Store) (key machine_id : String) (f : FaultSpec) :
    Except DbError (ApiResult × Store) :=
  match f.licenseQuery with
  | some e => Except.error e
  | none =>
    match findLicenseByKey s.licenses key with
    | some lic =>
      if lic.is_revoked then
        Except.ok (revokedResult, s)
      else
        match f.activationQuery with
        | some e => Except.error e
        | none =>
          if hasActivation s.activations lic.id machine_id then
            Except.ok (confirmedResult, s)
          else
            match f.countQuery with
            | some e => Except.error e
            | none =>
              if (countActivations s.activations lic.id : Int) ≥ lic.max_activations then
                Except.ok (quotaResult lic.max_activations, s)
              else
                match f.insertStep with
                | some e => Except.error e
                | none =>
                  Except.ok (grantedResult, insertActivation s lic.id machine_id)
    | none =>
      match f.validKeysQuery with
      | some e => Except.error e
      | none =>
        if s.valid_keys.contains key then
          Except.ok (testKeyResult, s)
        else
          Except.ok (unknownKeyResult, s)

/-- `verify_activation_key` under fault injection: the `try` body wrapped
in the `except sqlite3.Error` boundary handler (lines 151-153), which
turns every database error into `dbErrorResult` and leaves the store
unchanged (the connection is closed without a commit). -/
def verify_activation_key_run (s : Store) (key machine_id : String) (f : FaultSpec) :
    ApiResult × Store :=
  match verifyBody s key machine_id f with
  | Except.ok rs => rs
  | Except.error _ => (dbErrorResult, s)

/-- `verify_activation_key` in a fault-free sequential execution. -/
def verify_activation_key (s : Store) (key machine_id : String) :
    ApiResult × Store :=
  verify_activation_key_run s key machine_id noFault

/-- Repeated activation calls: fold `verify_activation_key` over a list
of machine ids, keeping the resulting store state. -/
def runAll (s : Store) (key : String) (ms : List String) : Store :=
  ms.foldl (fun t m => (verify_activation_key t key m).2) s

/-! ### Helper lemmas -/

lemma quotaResult_ne_granted (m : Int) : quotaResult m ≠ grantedResult := by
  intro h
  have hst : "error" = "success" := congrArg ApiResult.status h
  exact absurd hst (by decide)

/-- Exhaustive case analysis of the `try`-block body: it either raises a
database error, or returns a non-grant result without touching the store,
or takes the grant branch, in which case the license was found,
unrevoked, unbound to this machine and under quota, and exactly one
activation row is appended. -/
lemma verifyBody_cases (s : Store) (key mid : String) (f : FaultSpec) :
    (∃ e, verifyBody s key mid f = Except.error e) ∨
    (∃ r, verifyBody s key mid f = Except.ok (r, s) ∧ r ≠ grantedResult ∧
      (r.status = "success" ∨ r.status = "error")) ∨
    (∃ lic, findLicenseByKey s.licenses key = some lic ∧
      lic.is_revoked = false ∧
      hasActivation s.activations lic.id mid = false ∧
      (countActivations s.activations lic.id : Int) < lic.max_activations ∧
      verifyBody s key mid f = Except.ok (grantedResult, insertActivation s lic.id mid)) := by
  rcases hfq : f.licenseQuery with _ | e
  · rcases hfind : findLicenseByKey s.licenses key with _ | lic
    · rcases hvq : f.validKeysQuery with _ | e
      · by_cases hvk : key ∈ s.valid_keys
        · exact Or.inr (Or.inl ⟨testKeyResult,
            by simp [verifyBody, hfq, hfind, hvq, hvk], by decide, by decide⟩)
        · exact Or.inr (Or.inl ⟨unknownKeyResult,
            by simp [verifyBody, hfq, hfind, hvq, hvk], by decide, by decide⟩)
      · exact Or.inl ⟨e, by simp [verifyBody, hfq, hfind, hvq]⟩
    · rcases hrev : lic.is_revoked with _ | _
      · rcases haq : f.activationQuery with _ | e
        · rcases hact : hasActivation s.activations lic.id mid with _ | _
          · rcases hcq : f.countQuery with _ | e
            · by_cases hc : (countActivations s.activations lic.id : Int) ≥ lic.max_activations
              · exact Or.inr (Or.inl ⟨quotaResult lic.max_activations,
                  by simp [verifyBody, hfq, hfind, hrev, haq, hact, hcq, hc],
                  quotaResult_ne_granted _, Or.inr rfl⟩)
              · rcases his : f.insertStep with _ | e
                · exact Or.inr (Or.inr ⟨lic, rfl, hrev, hact, lt_of_not_ge hc,
                    by simp [verifyBody, hfq, hfind, hrev, haq, hact, hcq, hc, his]⟩)
                · exact Or.inl ⟨e,
                    by simp [verifyBody, hfq, hfind, hrev, haq, hact, hcq, hc, his]⟩
            · exact Or.inl ⟨e, by simp [verifyBody, hfq, hfind, hrev, haq, hact, hcq]⟩
          · exact Or.inr (Or.inl ⟨confirmedResult,
              by simp [verifyBody, hfq, hfind, hrev, haq, hact], by decide, by decide⟩)
        · exact Or.inl ⟨e, by simp [verifyBody, hfq, hfind, hrev, haq]⟩
      · exact Or.inr (Or.inl ⟨revokedResult,
          by simp [verifyBody, hfq, hfind, hrev], by decide, by decide⟩)
  · exact Or.inl ⟨e, by simp [verifyBody, hfq]⟩

/-! ### Claim theorems -/

/-- Claim C1 (counterexample): when the grant-branch insert fails with the
duplicate-key constraint violation (`sqlite3.IntegrityError`), the
function does not return the ConfirmedExisting success: the
`except sqlite3.Error` handler at line 151 catches it first and returns
the generic server-error result with status `"error"`. -/
theorem duplicate_key_race_not_confirmed_counterexample :
    verify_activation_key_run ⟨[⟨1, "K", 5, false⟩], [], []⟩ "K" "m1"
        ⟨none, none, none, some DbError.integrityError, none⟩ =
      (dbErrorResult, ⟨[⟨1, "K", 5, false⟩], [], []⟩) ∧
    dbErrorResult.status = "error" ∧ dbErrorResult ≠ confirmedResult := by
  refine ⟨by decide, rfl, by decide⟩

/-- Claim C1 (amended): if the grant branch is reached and the activation
insert fails with the duplicate-key constraint violation, then
`verify_activation_key` returns the generic server-error outcome
(status `"error"`) and leaves the store unchanged — the losing writer does
report a failure to its caller, because `sqlite3.IntegrityError` is a
subclass of `sqlite3.Error` and is swallowed by the blanket handler. -/
theorem duplicate_key_race_is_server_error (s : Store) (key mid : String) (lic : License)
    (hfind : findLicenseByKey s.licenses key = some lic)
    (hrev : lic.is_revoked = false)
    (hact : hasActivation s.activations lic.id mid = false)
    (hc : (countActivations s.activations lic.id : Int) < lic.max_activations) :
    verify_activation_key_run s key mid ⟨none, none, none, some DbError.integrityError, none⟩ =
      (dbErrorResult, s) ∧ dbErrorResult.status = "error" := by
  have hnc : ¬ (countActivations s.activations lic.id : Int) ≥ lic.max_activations :=
    not_le.mpr hc
  refine ⟨?_, rfl⟩
  simp [verify_activation_key_run, verifyBody, hfind, hrev, hact, hnc]

theorem duplicate_key_race_is_server_error_witness :
    verify_activation_key_run ⟨[⟨7, "W", 3, false⟩], [(7, "other")], []⟩ "W" "mX"
        ⟨none, none, none, some DbError.integrityError, none⟩ =
      (dbErrorResult, ⟨[⟨7, "W", 3, false⟩], [(7, "other")], []⟩) ∧
    dbErrorResult.status = "error" :=
  duplicate_key_race_is_server_error ⟨[⟨7, "W", 3, false⟩], [(7, "other")], []⟩ "W" "mX"
    ⟨7, "W", 3, false⟩ (by decide) (by decide) (by decide) (by decide)

/-- Claim C3: revocation takes precedence over an existing binding — for
any store, if the key resolves to a license whose `is_revoked` flag is
set, the call returns the revoked denial (an error outcome) with the
store unchanged, never the ConfirmedExisting success, even when an
activation row for this machine exists. -/
theorem revoked_license_always_denied (s : Store) (key mid : String) (lic : License)
    (hfind : findLicenseByKey s.licenses key = some lic)
    (hrev : lic.is_revoked = true) :
    verify_activation_key s key mid = (revokedResult, s) ∧
    revokedResult.status = "error" ∧ revokedResult ≠ confirmedResult := by
  refine ⟨?_, rfl, by decide⟩
  simp [verify_activation_key, verify_activation_key_run, verifyBody, noFault, hfind, hrev]

theorem revoked_license_always_denied_witness :
    verify_activation_key ⟨[⟨1, "K", 2, true⟩], [(1, "m1")], []⟩ "K" "m1" =
      (revokedResult, ⟨[⟨1, "K", 2, true⟩], [(1, "m1")], []⟩) ∧
    revokedResult.status = "error" ∧ revokedResult ≠ confirmedResult :=
  revoked_license_always_denied ⟨[⟨1, "K", 2, true⟩], [(1, "m1")], []⟩ "K" "m1"
    ⟨1, "K", 2, true⟩ (by decide) (by decide)

/-- Claim C7: a key absent from both the `licenses` table and the
`valid_keys` table yields the unknown-key denial (an error outcome) and
performs no state change. -/
theorem unknown_key_denied (s : Store) (key mid : String)
    (hfind : findLicenseByKey s.licenses key = none)
    (hvk : s.valid_keys.contains key = false) :
    verify_activation_key s key mid = (unknownKeyResult, s) ∧
    unknownKeyResult.status = "error" := by
  have hm : key ∉ s.valid_keys := by simpa using hvk
  refine ⟨?_, rfl⟩
  simp [verify_activation_key, verify_activation_key_run, verifyBody, noFault, hfind, hm]

theorem unknown_key_denied_witness :
    verify_activation_key ⟨[⟨1, "K", 2, false⟩], [(1, "m1")], ["T"]⟩ "X" "m9" =
      (unknownKeyResult, ⟨[⟨1, "K", 2, false⟩], [(1, "m1")], ["T"]⟩) ∧
    unknownKeyResult.status = "error" :=
  unknown_key_denied ⟨[⟨1, "K", 2, false⟩], [(1, "m1")], ["T"]⟩ "X" "m9"
    (by decide) (by decide)

/-- Claim C10: a non-revoked license with non-positive `max_activations`
can never grant a first activation — a machine with no existing binding
is denied with the quota-exceeded error and no row is inserted, because
the count check uses `>=` and the count is always `>= 0`. -/
theorem nonpositive_quota_never_grants (s : Store) (key mid : String) (lic : License)
    (hfind : findLicenseByKey s.licenses key = some lic)
    (hrev : lic.is_revoked = false)
    (hact : hasActivation s.activations lic.id mid = false)
    (hmax : lic.max_activations ≤ 0) :
    verify_activation_key s key mid = (quotaResult lic.max_activations, s) ∧
    (quotaResult lic.max_activations).status = "error" := by
  have hge : (countActivations s.activations lic.id : Int) ≥ lic.max_activations :=
    le_trans hmax (Int.natCast_nonneg _)
  refine ⟨?_, rfl⟩
  simp [verify_activation_key, verify_activation_key_run, verifyBody, noFault,
    hfind, hrev, hact, hge]

theorem nonpositive_quota_never_grants_witness :
    verify_activation_key ⟨[⟨1, "Z", 0, false⟩], [], []⟩ "Z" "m1" =
      (quotaResult 0, ⟨[⟨1, "Z", 0, false⟩], [], []⟩) ∧
    (quotaResult (0 : Int)).status = "error" :=
  nonpositive_quota_never_grants ⟨[⟨1, "Z", 0, false⟩], [], []⟩ "Z" "m1"
    ⟨1, "Z", 0, false⟩ (by decide) (by decide) (by decide) (by decide)

/-- Claim C6 (counterexample): being in the TestKey set does not make a
call succeed unconditionally — the code checks the `licenses` table
first, so a key present both in `valid_keys` and in `licenses` with the
revoked flag set returns the revoked denial (status `"error"`), not a
success. -/
theorem test_key_not_unconditional_counterexample :
    (⟨[⟨1, "K", 2, true⟩], [], ["K"]⟩ : Store).valid_keys.contains "K" = true ∧
    verify_activation_key ⟨[⟨1, "K", 2, true⟩], [], ["K"]⟩ "K" "m1" =
      (revokedResult, ⟨[⟨1, "K", 2, true⟩], [], ["K"]⟩) ∧
    revokedResult.status = "error" := by
  refine ⟨by decide, by decide, rfl⟩

/-- Claim C6 (amended): for every key in the TestKey set that is absent
from the `licenses` table, and every machine id, the call returns the
simulated-test success, unconditionally and without any state change. -/
theorem test_key_simulated_success (s : Store) (key mid : String)
    (hfind : findLicenseByKey s.licenses key = none)
    (hvk : s.valid_keys.contains key = true) :
    verify_activation_key s key mid = (testKeyResult, s) ∧
    testKeyResult.status = "success" := by
  have hm : key ∈ s.valid_keys := by simpa using hvk
  refine ⟨?_, rfl⟩
  simp [verify_activation_key, verify_activation_key_run, verifyBody, noFault, hfind, hm]

theorem test_key_simulated_success_witness :
    verify_activation_key ⟨[⟨1, "K", 2, false⟩], [(1, "m1")], ["T"]⟩ "T" "anything" =
      (testKeyResult, ⟨[⟨1, "K", 2, false⟩], [(1, "m1")], ["T"]⟩) ∧
    testKeyResult.status = "success" :=
  test_key_simulated_success ⟨[⟨1, "K", 2, false⟩], [(1, "m1")], ["T"]⟩ "T" "anything"
    (by decide) (by decide)

/-- Claim C8: the decision boundary is total and non-raising — every
evaluation produces a result whose status is `"success"` or `"error"`,
and whenever the try-block body raises a database error at any storage
call, the boundary handler returns the generic server-error outcome with
the store unchanged, never propagating the exception. -/
theorem decision_boundary_total (s : Store) (key mid : String) (f : FaultSpec) :
    ((verify_activation_key_run s key mid f).1.status = "success" ∨
     (verify_activation_key_run s key mid f).1.status = "error") ∧
    (∀ e, verifyBody s key mid f = Except.error e →
      verify_activation_key_run s key mid f = (dbErrorResult, s) ∧
      dbErrorResult.status = "error") := by
  constructor
  · rcases verifyBody_cases s key mid f with ⟨e, he⟩ | ⟨r, hr, _, hst⟩ | ⟨lic, _, _, _, _, hg⟩
    · right
      simp [verify_activation_key_run, he, dbErrorResult]
    · simpa [verify_activation_key_run, hr] using hst
    · left
      simp [verify_activation_key_run, hg, grantedResult]
  · intro e he
    refine ⟨?_, rfl⟩
    simp [verify_activation_key_run, he]

theorem decision_boundary_total_witness :
    ((verify_activation_key_run ⟨[], [], []⟩ "K" "m"
        ⟨some DbError.operationalError, none, none, none, none⟩).1.status = "success" ∨
     (verify_activation_key_run ⟨[], [], []⟩ "K" "m"
        ⟨some DbError.operationalError, none, none, none, none⟩).1.status = "error") ∧
    (verify_activation_key_run ⟨[], [], []⟩ "K" "m"
        ⟨some DbError.operationalError, none, none, none, none⟩ =
      (dbErrorResult, ⟨[], [], []⟩) ∧ dbErrorResult.status = "error") :=
  ⟨(decision_boundary_total ⟨[], [], []⟩ "K" "m"
      ⟨some DbError.operationalError, none, none, none, none⟩).1,
   (decision_boundary_total ⟨[], [], []⟩ "K" "m"
      ⟨some DbError.operationalError, none, none, none, none⟩).2
     DbError.operationalError rfl⟩

/-- Claim C9: frame property — each call performs at most one storage
mutation, the single activation insert, and only on the grant path: the
`licenses` and `valid_keys` collections are never changed, and the
`activations` collection gains exactly one row when the result is
GrantedNew and is unchanged on every other outcome. -/
theorem frame_at_most_one_insert (s : Store) (key mid : String) (f : FaultSpec) :
    (verify_activation_key_run s key mid f).2.licenses = s.licenses ∧
    (verify_activation_key_run s key mid f).2.valid_keys = s.valid_keys ∧
    (((verify_activation_key_run s key mid f).1 = grantedResult ∧
      ∃ lid, (verify_activation_key_run s key mid f).2.activations =
        s.activations ++ [(lid, mid)]) ∨
     ((verify_activation_key_run s key mid f).1 ≠ grantedResult ∧
      (verify_activation_key_run s key mid f).2.activations = s.activations)) := by
  rcases verifyBody_cases s key mid f with ⟨e, he⟩ | ⟨r, hr, hne, _⟩ | ⟨lic, _, _, _, _, hg⟩
  · have hrun : verify_activation_key_run s key mid f = (dbErrorResult, s) := by
      simp [verify_activation_key_run, he]
    rw [hrun]
    exact ⟨rfl, rfl, Or.inr ⟨show dbErrorResult ≠ grantedResult by decide, rfl⟩⟩
  · have hrun : verify_activation_key_run s key mid f = (r, s) := by
      simp [verify_activation_key_run, hr]
    rw [hrun]
    exact ⟨rfl, rfl, Or.inr ⟨hne, rfl⟩⟩
  · have hrun : verify_activation_key_run s key mid f =
        (grantedResult, insertActivation s lic.id mid) := by
      simp [verify_activation_key_run, hg]
    rw [hrun]
    exact ⟨rfl, rfl, Or.inl ⟨rfl, lic.id, rfl⟩⟩

/-- Claim C2: the per-license quota invariant
`count(Activation where license_id = L) <= L.max_activations` is
preserved by every call that returns the GrantedNew outcome — the count
is checked against `max_activations` before the insert within the same
execution (license ids are unique, as guaranteed by the primary key). -/
theorem granted_preserves_quota_invariant (s : Store) (key mid : String) (f : FaultSpec)
    (hids : (s.licenses.map License.id).Nodup)
    (hinv : ∀ L ∈ s.licenses,
      (countActivations s.activations L.id : Int) ≤ L.max_activations)
    (hres : (verify_activation_key_run s key mid f).1 = grantedResult) :
    ∀ L ∈ (verify_activation_key_run s key mid f).2.licenses,
      (countActivations (verify_activation_key_run s key mid f).2.activations L.id : Int)
        ≤ L.max_activations := by
  rcases verifyBody_cases s key mid f with ⟨e, he⟩ | ⟨r, hr, hne, _⟩ |
    ⟨lic, hfind, _, _, hlt, hg⟩
  · have hrun : verify_activation_key_run s key mid f = (dbErrorResult, s) := by
      simp [verify_activation_key_run, he]
    rw [hrun] at hres
    exact absurd (show dbErrorResult = grantedResult from hres) (by decide)
  · have hrun : verify_activation_key_run s key mid f = (r, s) := by
      simp [verify_activation_key_run, hr]
    rw [hrun] at hres
    exact absurd hres hne
  · have hrun : verify_activation_key_run s key mid f =
        (grantedResult, insertActivation s lic.id mid) := by
      simp [verify_activation_key_run, hg]
    rw [hrun]
    intro L hL
    have hLmem : L ∈ s.licenses := hL
    have hmem : lic ∈ s.licenses := List.mem_of_find?_eq_some hfind
    by_cases hid : L.id = lic.id
    · have hLlic : L = lic := List.inj_on_of_nodup_map hids hLmem hmem hid
      subst hLlic
      have hcount : countActivations (insertActivation s L.id mid).activations L.id =
          countActivations s.activations L.id + 1 := by
        simp [insertActivation, countActivations, List.countP_append, List.countP_cons]
      rw [hcount]
      push_cast
      omega
    · have hid' : ¬(lic.id = L.id) := fun h => hid h.symm
      have hcount : countActivations (insertActivation s lic.id mid).activations L.id =
          countActivations s.activations L.id := by
        simp [insertActivation, countActivations, List.countP_append, List.countP_cons, hid']
      rw [hcount]
      exact hinv L hLmem

theorem granted_preserves_quota_invariant_witness :
    (countActivations (verify_activation_key_run ⟨[⟨1, "K", 2, false⟩], [], []⟩ "K" "m1"
        noFault).2.activations 1 : Int) ≤ 2 :=
  granted_preserves_quota_invariant ⟨[⟨1, "K", 2, false⟩], [], []⟩ "K" "m1" noFault
    (by decide) (by decide) (by decide) ⟨1, "K", 2, false⟩ (by decide)

/-- Claim C4: sequential idempotence — for a non-revoked license with
available quota and a machine with no prior binding, the first call
grants a new activation, the second call confirms the existing one
without any further state change, and the store then holds exactly one
activation row for this `(license_id, machine_id)` pair. -/
theorem sequential_idempotence (s : Store) (key mid : String) (lic : License)
    (hfind : findLicenseByKey s.licenses key = some lic)
    (hrev : lic.is_revoked = false)
    (hact : hasActivation s.activations lic.id mid = false)
    (hlt : (countActivations s.activations lic.id : Int) < lic.max_activations) :
    (verify_activation_key s key mid).1 = grantedResult ∧
    verify_activation_key (verify_activation_key s key mid).2 key mid =
      (confirmedResult, (verify_activation_key s key mid).2) ∧
    (verify_activation_key s key mid).2.activations.count (lic.id, mid) = 1 := by
  have hnc : ¬ (countActivations s.activations lic.id : Int) ≥ lic.max_activations :=
    not_le.mpr hlt
  have h1 : verify_activation_key s key mid = (grantedResult, insertActivation s lic.id mid) := by
    simp [verify_activation_key, verify_activation_key_run, verifyBody, noFault,
      hfind, hrev, hact, hnc]
  rw [h1]
  have hact2 : hasActivation (insertActivation s lic.id mid).activations lic.id mid = true := by
    simp [insertActivation, hasActivation]
  have hfind2 : findLicenseByKey (insertActivation s lic.id mid).licenses key = some lic := hfind
  have hnotmem : (lic.id, mid) ∉ s.activations := by
    simpa [hasActivation] using hact
  refine ⟨rfl, ?_, ?_⟩
  · simp [verify_activation_key, verify_activation_key_run, verifyBody, noFault,
      hfind2, hrev, hact2]
  · simp [insertActivation, List.count_append, List.count_eq_zero.mpr hnotmem]

theorem sequential_idempotence_witness :
    (verify_activation_key ⟨[⟨1, "K", 2, false⟩], [], []⟩ "K" "m1").1 = grantedResult ∧
    verify_activation_key (verify_activation_key ⟨[⟨1, "K", 2, false⟩], [], []⟩ "K" "m1").2
        "K" "m1" =
      (confirmedResult, (verify_activation_key ⟨[⟨1, "K", 2, false⟩], [], []⟩ "K" "m1").2) ∧
    (verify_activation_key ⟨[⟨1, "K", 2, false⟩], [], []⟩ "K" "m1").2.activations.count
        (1, "m1") = 1 :=
  sequential_idempotence ⟨[⟨1, "K", 2, false⟩], [], []⟩ "K" "m1" ⟨1, "K", 2, false⟩
    (by decide) (by decide) (by decide) (by decide)

/-- Folding `verify_activation_key` over distinct fresh machine ids on a
non-revoked license with enough remaining quota grants each one: the
resulting store appends exactly one activation row per machine, in call
order, and touches nothing else. -/
lemma runAll_grants (key : String) (lic : License) (ms : List String) :
    ∀ s : Store, findLicenseByKey s.licenses key = some lic →
      lic.is_revoked = false →
      ms.Nodup →
      (∀ m ∈ ms, (lic.id, m) ∉ s.activations) →
      (countActivations s.activations lic.id + ms.length : Int) ≤ lic.max_activations →
      (runAll s key ms).licenses = s.licenses ∧
      (runAll s key ms).valid_keys = s.valid_keys ∧
      (runAll s key ms).activations = s.activations ++ ms.map (fun m => (lic.id, m)) := by
  induction ms with
  | nil =>
    intro s _ _ _ _ _
    simp [runAll]
  | cons m ms ih =>
    intro s hfind hrev hnodup hfresh hroom
    have hmem : (lic.id, m) ∉ s.activations := hfresh m (List.mem_cons_self m ms)
    have hact : hasActivation s.activations lic.id m = false := by
      simp [hasActivation, hmem]
    have hlt : (countActivations s.activations lic.id : Int) < lic.max_activations := by
      simp only [List.length_cons] at hroom
      push_cast at hroom
      omega
    have hnc : ¬ (countActivations s.activations lic.id : Int) ≥ lic.max_activations :=
      not_le.mpr hlt
    have hstep : verify_activation_key s key m =
        (grantedResult, insertActivation s lic.id m) := by
      simp [verify_activation_key, verify_activation_key_run, verifyBody, noFault,
        hfind, hrev, hact, hnc]
    have hrun : runAll s key (m :: ms) = runAll (insertActivation s lic.id m) key ms := by
      simp [runAll, hstep]
    have hmnotin : m ∉ ms := (List.nodup_cons.mp hnodup).1
    have hfresh' : ∀ m' ∈ ms, (lic.id, m') ∉ (insertActivation s lic.id m).activations := by
      intro m' hm'
      have h1 : (lic.id, m') ∉ s.activations := hfresh m' (List.mem_cons_of_mem _ hm')
      have h2 : ¬(m' = m) := fun h => hmnotin (h ▸ hm')
      simp [insertActivation, h1, h2]
    have hcnt : countActivations (insertActivation s lic.id m).activations lic.id =
        countActivations s.activations lic.id + 1 := by
      simp [insertActivation, countActivations, List.countP_append, List.countP_cons]
    have hroom' : (countActivations (insertActivation s lic.id m).activations lic.id
        + ms.length : Int) ≤ lic.max_activations := by
      rw [hcnt]
      simp only [List.length_cons] at hroom
      push_cast at hroom ⊢
      omega
    obtain ⟨hl, hv, ha⟩ := ih (insertActivation s lic.id m) hfind hrev
      (List.nodup_cons.mp hnodup).2 hfresh' hroom'
    rw [hrun]
    refine ⟨hl, hv, ?_⟩
    rw [ha]
    simp [insertActivation]

/-- Claim C5: quota enforcement — starting from a store in which a
non-revoked license with `max_activations = N` has no activations, after
calls by `N` distinct machines (all of which are granted, appending one
row each), a call by an `(N+1)`-th distinct machine returns the
quota-exceeded error outcome and inserts no activation row. -/
theorem quota_enforcement (s : Store) (key newM : String) (lic : License)
    (N : Nat) (ms : List String)
    (hfind : findLicenseByKey s.licenses key = some lic)
    (hrev : lic.is_revoked = false)
    (hmax : lic.max_activations = (N : Int))
    (hzero : countActivations s.activations lic.id = 0)
    (hnodup : ms.Nodup)
    (hlen : ms.length = N)
    (hnew : newM ∉ ms) :
    (runAll s key ms).activations = s.activations ++ ms.map (fun m => (lic.id, m)) ∧
    verify_activation_key (runAll s key ms) key newM =
      (quotaResult lic.max_activations, runAll s key ms) ∧
    (quotaResult lic.max_activations).status = "error" := by
  have hzero' : List.countP (fun a => a.1 == lic.id) s.activations = 0 := hzero
  have hfreshAll : ∀ x : String, (lic.id, x) ∉ s.activations := by
    intro x hx
    exact List.countP_eq_zero.mp hzero' (lic.id, x) hx (by simp)
  have hroom : (countActivations s.activations lic.id + ms.length : Int)
      ≤ lic.max_activations := by
    rw [hzero, hlen, hmax]
    push_cast
    omega
  obtain ⟨hl, hv, ha⟩ := runAll_grants key lic ms s hfind hrev hnodup
    (fun m _ => hfreshAll m) hroom
  have hfind_t : findLicenseByKey (runAll s key ms).licenses key = some lic := by
    rw [hl]
    exact hfind
  have hnin : (lic.id, newM) ∉ s.activations ++ ms.map (fun m => (lic.id, m)) := by
    intro hx
    rcases List.mem_append.mp hx with h | h
    · exact hfreshAll newM h
    · rcases List.mem_map.mp h with ⟨m, hm, hee⟩
      have hm' : m = newM := congrArg Prod.snd hee
      exact hnew (hm' ▸ hm)
  have hact_t : hasActivation (runAll s key ms).activations lic.id newM = false := by
    rw [ha]
    simp [hasActivation, hnin]
  have hcnt_t : countActivations (runAll s key ms).activations lic.id = N := by
    rw [ha]
    have hcomp : ((fun a : Nat × String => a.1 == lic.id) ∘ fun m : String => (lic.id, m)) =
        fun _ => true := by
      funext m
      simp
    simp [countActivations, List.countP_append, List.countP_map, hzero', hcomp,
      List.countP_true, hlen]
  have hge : (countActivations (runAll s key ms).activations lic.id : Int)
      ≥ lic.max_activations := by
    rw [hcnt_t, hmax]
  refine ⟨ha, ?_, rfl⟩
  simp [verify_activation_key, verify_activation_key_run, verifyBody, noFault,
    hfind_t, hrev, hact_t, hge]

theorem quota_enforcement_witness :
    (runAll ⟨[⟨1, "ABC", 2, false⟩], [], []⟩ "ABC" ["m1", "m2"]).activations =
      [] ++ (["m1", "m2"].map fun m => (1, m)) ∧
    verify_activation_key (runAll ⟨[⟨1, "ABC", 2, false⟩], [], []⟩ "ABC" ["m1", "m2"])
        "ABC" "m3" =
      (quotaResult 2, runAll ⟨[⟨1, "ABC", 2, false⟩], [], []⟩ "ABC" ["m1", "m2"]) ∧
    (quotaResult (2 : Int)).status = "error" :=
  quota_enforcement ⟨[⟨1, "ABC", 2, false⟩], [], []⟩ "ABC" "m3" ⟨1, "ABC", 2, false⟩
    2 ["m1", "m2"] (by decide) (by decide) (by decide) (by decide) (by decide)
    (by decide) (by decide)

end LicenseServer
